import Mathlib

/-!
A shallow embedding of `src/rust/arrow/src/array.rs`: the typed-array layer of
the Arrow columnar format.  Buffers are modelled as byte lists together with a
start address (for alignment), machine values as their little-endian bit
patterns (`Nat`), `i32` offset entries as `Int` via two's complement, and every
Rust `panic!` / failed `assert!` as `Except.error` carrying the panic message.
-/

deriving instance DecidableEq for Except

namespace ArrowSpec

/-- Modelled from the spec: `bit_util::ceil` (round-up division), used to size
bit-packed buffers; the crate's `bit_util` module is not part of the source
under verification. -/
def ceilU (a b : Nat) : Nat := (a + b - 1) / b

/-- Modelled from the spec: the native little-endian byte representation of a
fixed-width value (`to_byte_slice` of the `datatypes` module, which is not part
of the source under verification).  A native value is identified with its bit
pattern, so `encodeLE w v` is the `w`-byte representation of `v`. -/
def encodeLE : Nat → Nat → List Nat
  | 0, _ => []
  | w + 1, v => v % 256 :: encodeLE w (v / 256)

/-- Modelled from the spec: reading a fixed-width native value back from raw
little-endian bytes (the typed raw-pointer dereference in `value`). -/
def decodeLE : List Nat → Nat
  | [] => 0
  | b :: rest => b % 256 + 256 * decodeLE rest

/-- Interpret a `Nat` as a 32-bit two's complement signed integer, as Rust's
`as i32` cast does. -/
def toI32 (n : Nat) : Int :=
  let u : Nat := n % 2 ^ 32
  if u < 2 ^ 31 then (u : Int) else (u : Int) - 2 ^ 32

/-- Read an `i32` from four raw little-endian bytes. -/
def decodeI32 (bs : List Nat) : Int := toI32 (decodeLE bs)

/-- Modelled from the spec: `bit_util::get_bit_raw` — bit `i % 8` of byte
`i / 8`, least-significant-bit first (bit `k` of byte `b` tests value
`1 <<< k`); the `bit_util` module is not part of the source under
verification. -/
def getBit (bytes : List Nat) (i : Nat) : Bool :=
  Nat.testBit (bytes.getD (i / 8) 0) (i % 8)

/-- Modelled from the spec: `bit_util::set_bit` — set bit `i % 8` of byte
`i / 8`. -/
def setBit (bytes : List Nat) (i : Nat) : List Nat :=
  bytes.set (i / 8) (bytes.getD (i / 8) 0 ||| 2 ^ (i % 8))

/-- The enumerate-and-set loops of the `From<Vec<Option<_>>>` constructors:
walk `data` starting at bit position `start`, setting the bit for every element
satisfying `p`. -/
def markBits (p : α → Bool) (bm : List Nat) (data : List α) (start : Nat) : List Nat :=
  match data with
  | [] => bm
  | v :: rest => markBits p (if p v then setBit bm start else bm) rest (start + 1)

/-- Modelled from the spec: the shared immutable byte buffer (`buffer.rs`,
not part of the source under verification).  `bytes` is its contents and
`addr` the address of its first byte, kept so that the pointer-alignment
validation of array construction can be expressed. -/
structure Buffer where
  bytes : List Nat
  addr : Nat
deriving DecidableEq

/-- Modelled from the spec: `Buffer::slice` shares storage and advances the
start pointer. -/
def Buffer.slice (b : Buffer) (k : Nat) : Buffer :=
  { bytes := b.bytes.drop k, addr := b.addr + k }

/-- Modelled from the spec: `memory::is_aligned` — the start pointer is
aligned to `al` bytes. -/
def is_aligned (addr al : Nat) : Bool := addr % al == 0

/-- The logical type tag (`DataType` of the `datatypes` module), with the
recursive cases for list element types and struct field lists and the
temporal tags that the factory does not support. -/
inductive TimeUnit where
  | second | millisecond | microsecond | nanosecond
deriving DecidableEq

inductive DataType where
  | boolean
  | int8 | int16 | int32 | int64
  | uint8 | uint16 | uint32 | uint64
  | float32 | float64
  | utf8
  | list (elem : DataType)
  | struct (fields : List (String × DataType))
  | timestamp (unit : TimeUnit)
  | date32 | date64
  | time32 (unit : TimeUnit) | time64 (unit : TimeUnit)
  | interval

/-- Modelled from the spec: the untyped data container (`ArrayData` of the
`array_data` module, not part of the source under verification): type tag,
logical length, logical offset, null count, raw buffers, child containers and
optional null bitmap. -/
inductive ArrayData where
  | mk (data_type : DataType) (len : Nat) (offsetv : Nat) (null_count : Nat)
      (buffers : List Buffer) (child_data : List ArrayData)
      (null_bitmap : Option Buffer)

def ArrayData.data_type : ArrayData → DataType
  | .mk dt _ _ _ _ _ _ => dt

def ArrayData.len : ArrayData → Nat
  | .mk _ n _ _ _ _ _ => n

def ArrayData.offsetv : ArrayData → Nat
  | .mk _ _ o _ _ _ _ => o

def ArrayData.null_count : ArrayData → Nat
  | .mk _ _ _ nc _ _ _ => nc

def ArrayData.buffers : ArrayData → List Buffer
  | .mk _ _ _ _ bufs _ _ => bufs

def ArrayData.child_data : ArrayData → List ArrayData
  | .mk _ _ _ _ _ ch _ => ch

def ArrayData.null_bitmap : ArrayData → Option Buffer
  | .mk _ _ _ _ _ _ bm => bm

/-- Modelled from the spec: `ArrayData::is_valid` — element `i` is valid when
the null bitmap is absent or its bit `i` is set (null bitmap: one bit per
logical element, least-significant-bit first). -/
def ArrayData.is_valid (d : ArrayData) (i : Nat) : Bool :=
  match d.null_bitmap with
  | none => true
  | some b => getBit b.bytes i

/-- Modelled from the spec: `ArrayData::is_null` — the negation of
`is_valid`. -/
def ArrayData.is_null (d : ArrayData) (i : Nat) : Bool := ! d.is_valid i

/-- Modelled from the spec: the `ArrayData` builder — assembles a container
from a type tag plus buffers, children, null bitmap, offset and length.
When no explicit null count is supplied it is computed from the null bitmap
(zero bits among the first `len` positions; zero when no bitmap), which is
the behaviour the in-source tests pin down. -/
def buildData (dt : DataType) (len offsetv : Nat) (nc : Option Nat)
    (bufs : List Buffer) (children : List ArrayData) (bm : Option Buffer) : ArrayData :=
  ArrayData.mk dt len offsetv
    (nc.getD (match bm with
      | some b => (List.range len).countP (fun i => ! getBit b.bytes i)
      | none => 0))
    bufs children bm

/-- The polymorphic array: one of the five concrete layouts, each wrapping its
data container plus the raw buffers (and child arrays) its accessors read. -/
inductive ArrowArray where
  | primitive (w : Nat) (data : ArrayData) (raw_values : Buffer)
  | boolean (data : ArrayData) (raw_values : Buffer)
  | list (data : ArrayData) (values : ArrowArray) (value_offsets : Buffer)
  | binary (data : ArrayData) (value_offsets : Buffer) (value_data : Buffer)
  | struct (data : ArrayData) (boxed_fields : List ArrowArray)

/-- `impl From<ArrayDataRef> for PrimitiveArray<T>`: exactly one buffer, whose
start pointer must be aligned to `al = align_of::<T::Native>()`; returns the
value buffer. -/
def PrimitiveArray.from_data (al : Nat) (d : ArrayData) : Except String Buffer :=
  match d.buffers with
  | [b] =>
    if is_aligned b.addr al then .ok b
    else .error "memory is not aligned"
  | _ => .error "PrimitiveArray data should contain a single buffer only (values buffer)"

/-- `impl From<ArrayDataRef> for BinaryArray`: exactly two buffers (offsets,
values); the offsets pointer must be 4-byte aligned.  No offsets-content
validation is performed. -/
def BinaryArray.from_data (d : ArrayData) : Except String ArrowArray :=
  match d.buffers with
  | [b1, b2] =>
    if is_aligned b1.addr 4 then .ok (.binary d b1 b2)
    else .error "memory is not aligned"
  | _ => .error "BinaryArray data should contain 2 buffers only (offsets and values)"

/-- `ListArray::value_offset_at`: raw read of the `i`-th `i32` of the offsets
buffer. -/
def value_offset_at (b : Buffer) (i : Nat) : Int :=
  decodeI32 ((b.bytes.drop (4 * i)).take 4)

mutual

/-- `make_array`: runtime type dispatch from an untyped data container to a
concrete array layout; an unsupported tag panics.  The list branch is
`impl From<ArrayDataRef> for ListArray` (buffer count, child count, recursive
child construction, alignment, offsets-start-at-zero, final-offset-equals-
child-length) and the struct branch is `impl From<ArrayDataRef> for
StructArray` (one child array per child container, no validation). -/
def make_array : ArrayData → Except String ArrowArray
  | .mk dt len off nc bufs children bm =>
    let d := ArrayData.mk dt len off nc bufs children bm
    match dt with
    | .boolean => (PrimitiveArray.from_data 1 d).map (fun b => .boolean d b)
    | .int8 => (PrimitiveArray.from_data 1 d).map (fun b => .primitive 1 d b)
    | .int16 => (PrimitiveArray.from_data 2 d).map (fun b => .primitive 2 d b)
    | .int32 => (PrimitiveArray.from_data 4 d).map (fun b => .primitive 4 d b)
    | .int64 => (PrimitiveArray.from_data 8 d).map (fun b => .primitive 8 d b)
    | .uint8 => (PrimitiveArray.from_data 1 d).map (fun b => .primitive 1 d b)
    | .uint16 => (PrimitiveArray.from_data 2 d).map (fun b => .primitive 2 d b)
    | .uint32 => (PrimitiveArray.from_data 4 d).map (fun b => .primitive 4 d b)
    | .uint64 => (PrimitiveArray.from_data 8 d).map (fun b => .primitive 8 d b)
    | .float32 => (PrimitiveArray.from_data 4 d).map (fun b => .primitive 4 d b)
    | .float64 => (PrimitiveArray.from_data 8 d).map (fun b => .primitive 8 d b)
    | .utf8 => BinaryArray.from_data d
    | .list _ =>
      match bufs with
      | [b] =>
        match children with
        | [c] =>
          (make_array c).bind (fun values =>
            if is_aligned b.addr 4 then
              if value_offset_at b 0 = 0 then
                if value_offset_at b len = toI32 c.len then
                  .ok (.list d values b)
                else .error "inconsistent offsets buffer and values array"
              else .error "offsets do not start at zero"
            else .error "memory is not aligned")
        | _ => .error "ListArray should contain a single child array (values array)"
      | _ => .error "ListArray data should contain a single buffer only (value offsets)"
    | .struct _ => (make_arrays children).map (fun fields => .struct d fields)
    | _ => .error "Unexpected data type"

/-- Child-by-child construction used by the struct branch of `make_array`. -/
def make_arrays : List ArrayData → Except String (List ArrowArray)
  | [] => .ok []
  | c :: rest =>
    (make_array c).bind (fun a => (make_arrays rest).map (fun r => a :: r))

end

/-- The data container an array wraps (the `data` field every layout stores). -/
def ArrowArray.dataOf : ArrowArray → ArrayData
  | .primitive _ d _ => d
  | .boolean d _ => d
  | .list d _ _ => d
  | .binary d _ _ => d
  | .struct d _ => d

/-- The `Array` trait's `len`, together with `StructArray`'s override: a struct
array's length is its first field's length (`self.boxed_fields[0].len()`,
which panics when there is no field); every other layout delegates to the
container. -/
def ArrowArray.len : ArrowArray → Except String Nat
  | .struct _ fields =>
    match fields with
    | f :: _ => f.len
    | [] => .error "index out of bounds"
  | .primitive _ d _ => .ok d.len
  | .boolean d _ => .ok d.len
  | .list d _ _ => .ok d.len
  | .binary d _ _ => .ok d.len

/-- The `Array` trait's `offset` (no layout overrides it). -/
def ArrowArray.offsetOf (a : ArrowArray) : Nat := a.dataOf.offsetv

/-- The `Array` trait's `null_count` (no layout overrides it). -/
def ArrowArray.null_count (a : ArrowArray) : Nat := a.dataOf.null_count

/-- The `Array` trait's `is_valid` (no layout overrides it). -/
def ArrowArray.is_valid (a : ArrowArray) (i : Nat) : Bool := a.dataOf.is_valid i

/-- The `Array` trait's `is_null` (no layout overrides it). -/
def ArrowArray.is_null (a : ArrowArray) (i : Nat) : Bool := a.dataOf.is_null i

/-- The five concrete physical layouts (fixed-width primitives carry their
element width in bytes). -/
inductive Layout where
  | primitiveL (w : Nat)
  | booleanL
  | listL
  | binaryL
  | structL
deriving DecidableEq

/-- The layout a supported type tag dispatches to (`none` for the tags the
factory rejects). -/
def DataType.layout : DataType → Option Layout
  | .boolean => some .booleanL
  | .int8 => some (.primitiveL 1)
  | .int16 => some (.primitiveL 2)
  | .int32 => some (.primitiveL 4)
  | .int64 => some (.primitiveL 8)
  | .uint8 => some (.primitiveL 1)
  | .uint16 => some (.primitiveL 2)
  | .uint32 => some (.primitiveL 4)
  | .uint64 => some (.primitiveL 8)
  | .float32 => some (.primitiveL 4)
  | .float64 => some (.primitiveL 8)
  | .utf8 => some .binaryL
  | .list _ => some .listL
  | .struct _ => some .structL
  | _ => none

/-- The layout of a constructed array. -/
def ArrowArray.layout : ArrowArray → Layout
  | .primitive w _ _ => .primitiveL w
  | .boolean _ _ => .booleanL
  | .list _ _ _ => .listL
  | .binary _ _ _ => .binaryL
  | .struct _ _ => .structL

/-- `ListArray::from` as a standalone function (it is the list branch of
`make_array`, which it mutually recurses with). -/
def ListArray.from_data (d : ArrayData) : Except String ArrowArray :=
  match d.buffers with
  | [b] =>
    match d.child_data with
    | [c] =>
      (make_array c).bind (fun values =>
        if is_aligned b.addr 4 then
          if value_offset_at b 0 = 0 then
            if value_offset_at b d.len = toI32 c.len then
              .ok (.list d values b)
            else .error "inconsistent offsets buffer and values array"
          else .error "offsets do not start at zero"
        else .error "memory is not aligned")
    | _ => .error "ListArray should contain a single child array (values array)"
  | _ => .error "ListArray data should contain a single buffer only (value offsets)"

/-- `StructArray::from(ArrayDataRef)` as a standalone function: one child
array per child container, no validation. -/
def StructArray.from_data (d : ArrayData) : Except String ArrowArray :=
  (make_arrays d.child_data).map (fun fields => .struct d fields)

namespace PrimitiveArray

/-- `PrimitiveArray::raw_values` (numeric): the value pointer advanced by the
logical offset, in element units. -/
def raw_values (w : Nat) (d : ArrayData) (b : Buffer) : List Nat :=
  b.bytes.drop (d.offsetv * w)

/-- `PrimitiveArray::value` (numeric): dereference `raw_values() + i` — no
bounds check. -/
def value (w : Nat) (d : ArrayData) (b : Buffer) (i : Nat) : Nat :=
  decodeLE (((raw_values w d b).drop (i * w)).take w)

end PrimitiveArray

namespace BooleanArray

/-- `PrimitiveArray<BooleanType>::value`: computes `offset = i + self.offset()`,
asserts `offset < self.data.len()`, then reads bit `offset` of the bit-packed
value buffer. -/
def value (d : ArrayData) (b : Buffer) (i : Nat) : Except String Bool :=
  let off := i + d.offsetv
  if off < d.len then .ok (getBit b.bytes off)
  else .error "assertion failed: offset < self.data.len()"

end BooleanArray

namespace ListArray

/-- `ListArray::value_offset`: reads `offsets[self.offset() + i]` — no bounds
check. -/
def value_offset (d : ArrayData) (b : Buffer) (i : Nat) : Int :=
  value_offset_at b (d.offsetv + i)

/-- `ListArray::value_length`: `offsets[offset+i+1] - offsets[offset+i]` — no
bounds check. -/
def value_length (d : ArrayData) (b : Buffer) (i : Nat) : Int :=
  value_offset_at b (d.offsetv + i + 1) - value_offset_at b (d.offsetv + i)

end ListArray

namespace BinaryArray

/-- `BinaryArray::value_offset`: reads `offsets[self.offset() + i]` — no
bounds check. -/
def value_offset (d : ArrayData) (offs : Buffer) (i : Nat) : Int :=
  value_offset_at offs (d.offsetv + i)

/-- `BinaryArray::value_length`: `offsets[offset+i+1] - offsets[offset+i]` —
no bounds check. -/
def value_length (d : ArrayData) (offs : Buffer) (i : Nat) : Int :=
  value_offset_at offs (d.offsetv + i + 1) - value_offset_at offs (d.offsetv + i)

/-- `BinaryArray::value`: asserts `i < self.data.len()` ("BinaryArray out of
bounds access"), then returns the byte span
`[offsets[i+offset], offsets[i+offset+1])` of the value-data buffer. -/
def value (d : ArrayData) (offs vals : Buffer) (i : Nat) : Except String (List Nat) :=
  if i < d.len then
    let off := i + d.offsetv
    let pos := value_offset_at offs off
    .ok ((vals.bytes.drop pos.toNat).take (value_offset_at offs (off + 1) - pos).toNat)
  else .error "BinaryArray out of bounds access"

/-- `BinaryArray::get_string`: `value(i)` decoded as UTF-8 without validation;
the unchecked decode is modelled as the byte sequence itself. -/
def get_string (d : ArrayData) (offs vals : Buffer) (i : Nat) : Except String (List Nat) :=
  value d offs vals i

end BinaryArray

/-- The value buffer written by `impl From<Vec<Option<$native_ty>>> for
PrimitiveArray<$ty>`: for `Some(n)` the native byte representation of `n`,
for `None` a zero-filled placeholder of the same width. -/
def optValBuf (w : Nat) (data : List (Option Nat)) : List Nat :=
  data.flatMap (fun v =>
    match v with
    | some n => encodeLE w n
    | none => List.replicate w 0)

/-- The null bitmap written by the `From<Vec<Option<_>>>` constructors:
`ceil(len, 8)` zero bytes with the bit of every `Some` slot set. -/
def optNullBuf (data : List (Option α)) : List Nat :=
  markBits Option.isSome (List.replicate (ceilU data.length 8) 0) data 0

/-- The data container assembled by `impl From<Vec<Option<$native_ty>>> for
PrimitiveArray<$ty>` (no explicit null count or offset). -/
def optData (w : Nat) (dt : DataType) (data : List (Option Nat)) : ArrayData :=
  buildData dt data.length 0 none [⟨optValBuf w data, 0⟩] [] (some ⟨optNullBuf data, 0⟩)

/-- `impl From<Vec<Option<$native_ty>>> for PrimitiveArray<$ty>`: build the
null bitmap and zero-padded value buffer, then construct through
`PrimitiveArray::from(array_data)` (which re-validates buffer count and
alignment). -/
def PrimitiveArray.from_vec_opt (w al : Nat) (dt : DataType) (data : List (Option Nat)) :
    Except String ArrowArray :=
  (PrimitiveArray.from_data al (optData w dt data)).map
    (fun b => .primitive w (optData w dt data) b)

/-- The bit-packed value buffer written by `impl From<Vec<Option<bool>>> for
BooleanArray`: `ceil(len, 8)` zero bytes with the bit of every `Some(true)`
slot set. -/
def boolOptValBuf (data : List (Option Bool)) : List Nat :=
  markBits (fun v => v.getD false) (List.replicate (ceilU data.length 8) 0) data 0

/-- The data container assembled by `impl From<Vec<Option<bool>>> for
BooleanArray`. -/
def boolOptData (data : List (Option Bool)) : ArrayData :=
  buildData .boolean data.length 0 none [⟨boolOptValBuf data, 0⟩] []
    (some ⟨optNullBuf data, 0⟩)

/-- `impl From<Vec<Option<bool>>> for BooleanArray`: build the null bitmap and
the bit-packed value buffer, then construct through `BooleanArray::from`. -/
def BooleanArray.from_vec_opt (data : List (Option Bool)) : Except String ArrowArray :=
  (PrimitiveArray.from_data 1 (boolOptData data)).map
    (fun b => .boolean (boolOptData data) b)

/-- The offsets table written by `impl From<Vec<&[u8]>> for BinaryArray`:
`0` followed by the running sums of the element lengths. -/
def prefixLens : List (List Nat) → List Nat
  | [] => [0]
  | x :: rest => 0 :: (prefixLens rest).map (fun n => n + x.length)

/-- `impl From<Vec<&[u8]>> for BinaryArray` (and the identical
`From<Vec<&str>>`): offsets buffer of running length sums, concatenated value
bytes, then `BinaryArray::from(array_data)`. -/
def BinaryArray.from_byte_vecs (v : List (List Nat)) : Except String ArrowArray :=
  BinaryArray.from_data
    (buildData .utf8 v.length 0 none
      [⟨(prefixLens v).flatMap (encodeLE 4), 0⟩, ⟨v.flatten, 0⟩] [] none)

/-- `impl From<ListArray> for BinaryArray` (`d` is the list array's data
container): requires the child container to have no children and the `UInt8`
type tag, then reuses the list's offsets buffer and the child's first buffer
as the two buffers of a `Utf8` container, carrying over the null bitmap and
null count when a bitmap is present, and constructs through
`BinaryArray::from`. -/
def BinaryArray.from_list (d : ArrayData) : Except String ArrowArray :=
  match d.child_data with
  | [] => .error "index out of bounds"
  | c :: _ =>
    if c.child_data.length ≠ 0 then
      .error "BinaryArray can only be created from list array of u8 values (i.e. List<PrimitiveArray<u8>>)."
    else if ! isUInt8 c.data_type then
      .error "BinaryArray can only be created from List<u8> arrays, mismatched data types."
    else
      match d.buffers with
      | [] => .error "index out of bounds"
      | boff :: _ =>
        match c.buffers with
        | [] => .error "index out of bounds"
        | bval :: _ =>
          BinaryArray.from_data
            (buildData .utf8 d.len 0
              (match d.null_bitmap with
                | some _ => some d.null_count
                | none => none)
              [boff, bval] [] d.null_bitmap)
where
  /-- The `assert_eq!` against `DataType::UInt8` in `From<ListArray>`. -/
  isUInt8 : DataType → Bool
    | .uint8 => true
    | _ => false

/-- The child-length loop of `impl From<Vec<(Field, ArrayRef)>> for
StructArray`: every supplied column's length must equal that of the first. -/
def checkLens (length : Nat) : List ((String × DataType) × ArrowArray) → Except String Unit
  | [] => .ok ()
  | (_, a) :: rest =>
    (a.len).bind (fun l =>
      if length = l then checkLens length rest
      else .error "all child arrays of a StructArray must have the same length")

/-- `impl From<Vec<(Field, ArrayRef)>> for StructArray`: take the first
column's length, check every other column against it, then assemble a Struct
container wiring the columns' data in as children (the builder sets no
length) and construct through `StructArray::from(data)`. -/
def StructArray.from_pairs (v : List ((String × DataType) × ArrowArray)) :
    Except String ArrowArray :=
  match v with
  | [] => .error "index out of bounds"
  | (_, a0) :: rest =>
    (a0.len).bind (fun length =>
      (checkLens length rest).bind (fun _ =>
        StructArray.from_data
          (buildData (.struct (v.map Prod.fst)) 0 0 none []
            (v.map (fun p => p.2.dataOf)) none)))

/-! ### Concrete example data -/

/-- Raw bytes of an `i32` offsets table. -/
def offsBytes (ns : List Nat) : List Nat := ns.flatMap (encodeLE 4)

/-- Boolean container of length 10, offset 0, no nulls, value bytes
`[0x48, 0x02]` (the `test_boolean_array_new` fixture). -/
def exBool10d : ArrayData := .mk .boolean 10 0 0 [⟨[72, 2], 0⟩] [] none

def exBool10b : Buffer := ⟨[72, 2], 0⟩

/-- Boolean container of length 5 with logical offset 2 over value byte
`0b00011011` (the `test_boolean_array_builder` fixture). -/
def exBool27d : ArrayData := .mk .boolean 5 2 0 [⟨[27], 0⟩] [] none

def exBool27b : Buffer := ⟨[27], 0⟩

/-- `Int32` child container of length 8 holding `[0, 1, 2, 3, 4, 5, 6, 7]`. -/
def exChild8 : ArrayData :=
  .mk .int32 8 0 0 [⟨offsBytes [0, 1, 2, 3, 4, 5, 6, 7], 0⟩] [] none

/-- List container over `exChild8` whose offsets `[2, 2, 5, 7]` do not start
at zero. -/
def exListBad1 : ArrayData :=
  .mk (.list .int32) 3 0 0 [⟨offsBytes [2, 2, 5, 7], 0⟩] [exChild8] none

/-- List container over `exChild8` whose offsets `[0, 2, 5, 7]` end at 7
while the child has length 8. -/
def exListBad2 : ArrayData :=
  .mk (.list .int32) 3 0 0 [⟨offsBytes [0, 2, 5, 7], 0⟩] [exChild8] none

/-- Binary container with offsets `[2, 2, 5, 7]` over an 8-byte payload. -/
def exBinBad1 : ArrayData :=
  .mk .utf8 3 0 0 [⟨offsBytes [2, 2, 5, 7], 0⟩, ⟨List.replicate 8 0, 0⟩] [] none

/-- Binary container with offsets `[0, 2, 5, 7]` over an 8-byte payload. -/
def exBinBad2 : ArrayData :=
  .mk .utf8 3 0 0 [⟨offsBytes [0, 2, 5, 7], 0⟩, ⟨List.replicate 8 0, 0⟩] [] none

/-- `Int8` container of length 2. -/
def exInt8Len2 : ArrayData := .mk .int8 2 0 0 [⟨[5, 6], 0⟩] [] none

/-- Struct container whose own length field says 5 while its single `Int8`
child has length 2 (buffer and child counts match the struct tag). -/
def exStructLen : ArrayData :=
  .mk (.struct [("a", .int8)]) 5 0 0 [] [exInt8Len2] none

/-- The bytes of `"hello" "" "parquet"`. -/
def exPayload : List Nat := [104, 101, 108, 108, 111, 112, 97, 114, 113, 117, 101, 116]

/-- `UInt8` child container over `exPayload`. -/
def exU8Child : ArrayData := .mk .uint8 12 0 0 [⟨exPayload, 0⟩] [] none

/-- List-of-`u8` container with offsets `[0, 5, 5, 12]` over `exU8Child`
(the `test_binary_array_from_list_array` fixture). -/
def exListOfU8 : ArrayData :=
  .mk .utf8 3 0 0 [⟨offsBytes [0, 5, 5, 12], 0⟩] [exU8Child] none

/-- An 8-byte aligned buffer sliced at 1: a misaligned start pointer. -/
def exMisaligned : Buffer := Buffer.slice ⟨List.replicate 8 0, 0⟩ 1

/-- A `Float32` array of length 1 and a `Float64` array of length 2, the
mismatched struct columns of `test_invalid_struct_child_array_lengths`. -/
def exF32Len1 : ArrowArray :=
  .primitive 4 (.mk .float32 1 0 0 [⟨encodeLE 4 0, 0⟩] [] none) ⟨encodeLE 4 0, 0⟩

def exF64Len2 : ArrowArray :=
  .primitive 8 (.mk .float64 2 0 0 [⟨encodeLE 8 0 ++ encodeLE 8 0, 0⟩] [] none)
    ⟨encodeLE 8 0 ++ encodeLE 8 0, 0⟩

/-- The logical strings `["hello", "", "parquet"]` as byte lists. -/
def exStrings : List (List Nat) :=
  [[104, 101, 108, 108, 111], [], [112, 97, 114, 113, 117, 101, 116]]

/-- A small optional-values vector: `[Some 5, None]`. -/
def exOptVec : List (Option Nat) := [some 5, none]

/-- A small optional-booleans vector: `[Some true, None, Some false]`. -/
def exOptBoolVec : List (Option Bool) := [some true, none, some false]

/-! ### Byte-encoding and bit-manipulation lemmas -/

theorem encodeLE_length (w v : Nat) : (encodeLE w v).length = w := by
  induction w generalizing v with
  | zero => rfl
  | succ w ih => simp [encodeLE, ih]

theorem decodeLE_encodeLE (w v : Nat) (h : v < 256 ^ w) :
    decodeLE (encodeLE w v) = v := by
  induction w generalizing v with
  | zero =>
    simp only [Nat.pow_zero, Nat.lt_one_iff] at h
    simp [h, encodeLE, decodeLE]
  | succ w ih =>
    have hdiv : v / 256 < 256 ^ w := by
      rw [Nat.div_lt_iff_lt_mul (by norm_num)]
      calc v < 256 ^ (w + 1) := h
        _ = 256 ^ w * 256 := by ring
    simp only [encodeLE, decodeLE, ih _ hdiv]
    omega

theorem decodeLE_replicate_zero (w : Nat) : decodeLE (List.replicate w 0) = 0 := by
  induction w with
  | zero => rfl
  | succ w ih => simp [List.replicate, decodeLE, ih]

/-- Slicing a uniform-width concatenation at `k * w` recovers the `k`-th
chunk. -/
theorem flatMap_slice {α β : Type} (f : α → List β) (w : Nat)
    (hw : ∀ x, (f x).length = w) :
    ∀ (l : List α) (k : Nat) (hk : k < l.length),
      ((l.flatMap f).drop (k * w)).take w = f (l.get ⟨k, hk⟩) := by
  intro l
  induction l with
  | nil => intro k hk; simp at hk
  | cons x rest ih =>
    intro k hk
    cases k with
    | zero =>
      simp only [List.flatMap_cons, Nat.zero_mul, List.drop_zero, List.get]
      exact List.take_left' (hw x)
    | succ k =>
      have harith : (k + 1) * w = w + k * w := by ring
      simp only [List.flatMap_cons, List.get, harith]
      rw [← List.drop_drop, List.drop_left' (hw x)]
      exact ih k (Nat.lt_of_succ_lt_succ hk)

theorem getBit_replicate_zero (n i : Nat) : getBit (List.replicate n 0) i = false := by
  simp only [getBit, List.getD_eq_getElem?_getD, List.getElem?_replicate]
  split <;> simp [Nat.zero_testBit]

theorem length_setBit (bs : List Nat) (j : Nat) : (setBit bs j).length = bs.length :=
  List.length_set ..

theorem getBit_setBit_self (bs : List Nat) (j : Nat) (h : j / 8 < bs.length) :
    getBit (setBit bs j) j = true := by
  simp only [getBit, setBit, List.getD_eq_getElem?_getD, List.getElem?_set_self h,
    Option.getD_some, Nat.testBit_lor, Nat.testBit_two_pow_self, Bool.or_true]

theorem getBit_setBit_ne (bs : List Nat) (i j : Nat) (h : i ≠ j) :
    getBit (setBit bs j) i = getBit bs i := by
  simp only [getBit, setBit, List.getD_eq_getElem?_getD, List.getElem?_set]
  by_cases hb : j / 8 = i / 8
  · have hm : i % 8 ≠ j % 8 := by omega
    rw [if_pos hb]
    by_cases hl : j / 8 < bs.length
    · rw [if_pos hl]
      simp only [Option.getD_some, Nat.testBit_lor,
        Nat.testBit_two_pow_of_ne (Ne.symm hm), Bool.or_false, hb,
        List.getD_eq_getElem?_getD]
    · rw [if_neg hl, ← hb, List.getElem?_eq_none (by omega)]
  · rw [if_neg hb]

theorem length_markBits {α : Type} (p : α → Bool) (bm : List Nat) (data : List α)
    (start : Nat) : (markBits p bm data start).length = bm.length := by
  induction data generalizing bm start with
  | nil => rfl
  | cons v rest ih =>
    simp only [markBits]
    rw [ih]
    split <;> simp [length_setBit]

theorem getBit_markBits_lt {α : Type} (p : α → Bool) (data : List α) (bm : List Nat)
    (start i : Nat) (hi : i < start) :
    getBit (markBits p bm data start) i = getBit bm i := by
  induction data generalizing bm start with
  | nil => rfl
  | cons v rest ih =>
    simp only [markBits]
    rw [ih _ _ (by omega)]
    split
    · exact getBit_setBit_ne _ _ _ (by omega)
    · rfl

theorem getBit_markBits {α : Type} (p : α → Bool) (data : List α) (bm : List Nat)
    (start k : Nat) (hk : k < data.length)
    (hbound : start + data.length ≤ 8 * bm.length) :
    getBit (markBits p bm data start) (start + k) =
      (p (data.get ⟨k, hk⟩) || getBit bm (start + k)) := by
  induction data generalizing bm start k with
  | nil => simp at hk
  | cons v rest ih =>
    cases k with
    | zero =>
      simp only [markBits, List.get]
      rw [getBit_markBits_lt _ _ _ _ _ (by omega)]
      split
      · rename_i hp
        simp only [hp, Bool.true_or, Nat.add_zero]
        exact getBit_setBit_self _ _ (by simp at hbound; omega)
      · rename_i hp
        simp only [Bool.not_eq_true] at hp
        simp [hp]
    | succ k =>
      have h1 : start + (k + 1) = (start + 1) + k := by omega
      simp only [markBits, List.get, h1]
      rw [ih _ _ _ (by simpa using Nat.lt_of_succ_lt_succ hk)]
      · congr 1
        split
        · exact getBit_setBit_ne _ _ _ (by omega)
        · rfl
      · split
        · simp only [length_setBit]
          simp at hbound; omega
        · simp at hbound; omega

theorem le_ceilU_mul (n : Nat) : n ≤ 8 * ceilU n 8 := by
  simp only [ceilU]
  have h1 := Nat.div_add_mod (n + 8 - 1) 8
  have h2 : (n + 8 - 1) % 8 < 8 := Nat.mod_lt _ (by norm_num)
  omega

/-! ### Constructor-analysis lemmas -/

/-- The numeric `value` accessor reads the raw buffer at element index
`i + offset`. -/
theorem primitive_value_raw (w : Nat) (d : ArrayData) (b : Buffer) (i : Nat) :
    PrimitiveArray.value w d b i =
      decodeLE ((b.bytes.drop ((i + d.offsetv) * w)).take w) := by
  simp only [PrimitiveArray.value, PrimitiveArray.raw_values, List.drop_drop]
  ring_nf

/-- `PrimitiveArray::from(array_data)` succeeds exactly on one-buffer
containers with an aligned value buffer. -/
theorem primitive_from_data_ok (al : Nat) (d : ArrayData) (b : Buffer) :
    PrimitiveArray.from_data al d = .ok b ↔
      d.buffers = [b] ∧ is_aligned b.addr al = true := by
  constructor
  · intro h
    unfold PrimitiveArray.from_data at h
    split at h
    · rename_i b' hb
      split at h
      · cases h; exact ⟨hb, by assumption⟩
      · cases h
    · cases h
  · rintro ⟨hb, hal⟩
    unfold PrimitiveArray.from_data
    rw [hb]
    simp [hal]

/-- The chunk of the optional-values buffer at slot `i` is the encoding of the
`i`-th element (`Some n` ↦ the bytes of `n`, `None` ↦ zero bytes). -/
theorem optValBuf_chunk (w : Nat) (data : List (Option Nat)) (i : Nat)
    (hi : i < data.length) :
    ((optValBuf w data).drop (i * w)).take w =
      match data.get ⟨i, hi⟩ with
      | some n => encodeLE w n
      | none => List.replicate w 0 := by
  unfold optValBuf
  rw [flatMap_slice _ w (fun x => by cases x <;> simp [encodeLE_length]) data i hi]

/-- Bit `i` of the constructed null bitmap is set exactly when element `i` is
`Some`. -/
theorem optNullBuf_bit {α : Type} (data : List (Option α)) (i : Nat)
    (hi : i < data.length) :
    getBit (optNullBuf data) i = (data.get ⟨i, hi⟩).isSome := by
  unfold optNullBuf
  have h := getBit_markBits Option.isSome data
    (List.replicate (ceilU data.length 8) 0) 0 i hi
    (by simpa using le_ceilU_mul data.length)
  simpa [getBit_replicate_zero] using h

/-- Bit `i` of the constructed boolean value buffer is set exactly when
element `i` is `Some true`. -/
theorem boolOptValBuf_bit (data : List (Option Bool)) (i : Nat)
    (hi : i < data.length) :
    getBit (boolOptValBuf data) i = (data.get ⟨i, hi⟩).getD false := by
  unfold boolOptValBuf
  have h := getBit_markBits (fun v => v.getD false) data
    (List.replicate (ceilU data.length 8) 0) 0 i hi
    (by simpa using le_ceilU_mul data.length)
  simpa [getBit_replicate_zero] using h

/-- `From<Vec<Option<$native_ty>>>` always succeeds and yields the primitive
layout over the assembled container and value buffer (the builder's buffers
start at an aligned address). -/
theorem from_vec_opt_eq (w al : Nat) (dt : DataType) (data : List (Option Nat)) :
    PrimitiveArray.from_vec_opt w al dt data =
      .ok (.primitive w (optData w dt data) ⟨optValBuf w data, 0⟩) := by
  unfold PrimitiveArray.from_vec_opt
  have h : PrimitiveArray.from_data al (optData w dt data) = .ok ⟨optValBuf w data, 0⟩ := by
    rw [primitive_from_data_ok]
    exact ⟨rfl, by simp [is_aligned]⟩
  rw [h]
  rfl

/-- `From<Vec<Option<bool>>>` always succeeds and yields the boolean layout
over the assembled container and bit-packed value buffer. -/
theorem bool_from_vec_opt_eq (data : List (Option Bool)) :
    BooleanArray.from_vec_opt data =
      .ok (.boolean (boolOptData data) ⟨boolOptValBuf data, 0⟩) := by
  unfold BooleanArray.from_vec_opt
  have h : PrimitiveArray.from_data 1 (boolOptData data) = .ok ⟨boolOptValBuf data, 0⟩ := by
    rw [primitive_from_data_ok]
    exact ⟨rfl, by simp [is_aligned]⟩
  rw [h]
  rfl

/-- The numeric `value` of an array built by `From<Vec<Option<_>>>` decodes
the `i`-th chunk of the value buffer. -/
theorem from_vec_opt_value (w : Nat) (dt : DataType) (data : List (Option Nat))
    (i : Nat) (hi : i < data.length) :
    PrimitiveArray.value w (optData w dt data) ⟨optValBuf w data, 0⟩ i =
      decodeLE (match data.get ⟨i, hi⟩ with
        | some n => encodeLE w n
        | none => List.replicate w 0) := by
  rw [primitive_value_raw]
  have hoff : (optData w dt data).offsetv = 0 := rfl
  rw [hoff, Nat.add_zero]
  show decodeLE (((optValBuf w data).drop (i * w)).take w) = _
  rw [optValBuf_chunk w data i hi]

/-! ### Claims -/

/-- C4: for every fixed-width array built over a container with logical
offset `o`, `value(i)` equals the value stored at raw buffer index `i + o`:
numeric element reads decode the bytes at element index `i + o`, boolean bit
reads (whenever they return) read bit `i + o` of the bit-packed value buffer,
and the list and text offset-table reads return `offsets[o + i]`. -/
theorem c4_offset_composition :
    (∀ (w : Nat) (d : ArrayData) (b : Buffer) (i : Nat),
      PrimitiveArray.value w d b i =
        decodeLE ((b.bytes.drop ((i + d.offsetv) * w)).take w))
    ∧ (∀ (d : ArrayData) (b : Buffer) (i : Nat), i + d.offsetv < d.len →
      BooleanArray.value d b i = .ok (getBit b.bytes (i + d.offsetv)))
    ∧ (∀ (d : ArrayData) (b : Buffer) (i : Nat),
      ListArray.value_offset d b i =
        decodeI32 ((b.bytes.drop (4 * (d.offsetv + i))).take 4))
    ∧ (∀ (d : ArrayData) (offs : Buffer) (i : Nat),
      BinaryArray.value_offset d offs i =
        decodeI32 ((offs.bytes.drop (4 * (d.offsetv + i))).take 4)) := by
  refine ⟨primitive_value_raw, fun d b i h => ?_, fun d b i => rfl, fun d offs i => rfl⟩
  simp only [BooleanArray.value, if_pos h]

/-- Witness for C4 at the offset-2 boolean fixture: `value(1)` reads raw bit
`3`. -/
theorem c4_offset_composition_witness :
    BooleanArray.value exBool27d exBool27b 1 = .ok (getBit exBool27b.bytes 3) :=
  c4_offset_composition.2.1 exBool27d exBool27b 1 (by decide)

/-- C6: over value bytes `[0x48, 0x02]` with length 10, offset 0 and no
nulls, the boolean accessor returns `true` exactly at indices 3, 6 and 9
(bit `i % 8` of byte `i / 8`, testing value `1 <<< (i % 8)`). -/
theorem c6_bit_packing :
    make_array exBool10d = .ok (.boolean exBool10d exBool10b)
    ∧ ∀ i, i < 10 →
      BooleanArray.value exBool10d exBool10b i =
        .ok (decide (i = 3 ∨ i = 6 ∨ i = 9)) :=
  ⟨by rfl, by decide⟩

/-- Witness for C6 at index 3. -/
theorem c6_bit_packing_witness :
    BooleanArray.value exBool10d exBool10b 3 = .ok (decide (3 = 3 ∨ 3 = 6 ∨ 3 = 9)) :=
  c6_bit_packing.2 3 (by decide)

/-- Counterexample to C2 as stated: the bit-packed boolean accessor is *not*
unchecked — on the length-10 boolean fixture, reading index 10 aborts with a
failed index assertion instead of proceeding with the read. -/
theorem c2_boolean_checked_counterexample :
    BooleanArray.value exBool10d exBool10b 10 =
      .error "assertion failed: offset < self.data.len()" := by decide

/-- C2 (amended): numeric `value(i)` and the list accessors `value_offset` /
`value_length` perform no index check against the logical length (their result
does not depend on it); `BinaryArray::value(i)` aborts with "BinaryArray out
of bounds access" for every `i ≥ len`; and the boolean `value(i)` is also
checked — it asserts `i + offset < len` and aborts past that. -/
theorem c2_unchecked_access_amended :
    (∀ (w : Nat) (d₁ d₂ : ArrayData) (b : Buffer) (i : Nat),
      d₁.offsetv = d₂.offsetv →
      PrimitiveArray.value w d₁ b i = PrimitiveArray.value w d₂ b i)
    ∧ (∀ (d₁ d₂ : ArrayData) (b : Buffer) (i : Nat),
      d₁.offsetv = d₂.offsetv →
      ListArray.value_offset d₁ b i = ListArray.value_offset d₂ b i
      ∧ ListArray.value_length d₁ b i = ListArray.value_length d₂ b i)
    ∧ (∀ (d : ArrayData) (offs vals : Buffer) (i : Nat), d.len ≤ i →
      BinaryArray.value d offs vals i = .error "BinaryArray out of bounds access")
    ∧ (∀ (d : ArrayData) (b : Buffer) (i : Nat), d.len ≤ i + d.offsetv →
      BooleanArray.value d b i =
        .error "assertion failed: offset < self.data.len()") := by
  refine ⟨fun w d₁ d₂ b i h => ?_, fun d₁ d₂ b i h => ?_,
    fun d offs vals i h => ?_, fun d b i h => ?_⟩
  · simp [PrimitiveArray.value, PrimitiveArray.raw_values, h]
  · simp [ListArray.value_offset, ListArray.value_length, h]
  · have hne : ¬ (i < d.len) := by omega
    simp only [BinaryArray.value, if_neg hne]
  · have hne : ¬ (i + d.offsetv < d.len) := by omega
    simp only [BooleanArray.value, if_neg hne]

/-- Witness for C2's amended claim: the text accessor aborts at index 3 of a
length-3 binary fixture. -/
theorem c2_unchecked_access_amended_witness :
    BinaryArray.value exListOfU8 ⟨offsBytes [0, 5, 5, 12], 0⟩ ⟨exPayload, 0⟩ 3 =
      .error "BinaryArray out of bounds access" :=
  c2_unchecked_access_amended.2.2.1 exListOfU8 ⟨offsBytes [0, 5, 5, 12], 0⟩
    ⟨exPayload, 0⟩ 3 (by decide)

/-- C5: round-trip through `From<Vec<Option<_>>>` — construction always
succeeds, `None` slots read back as not valid (and null), and `Some v` slots
read back as valid with `value(i)` bit-for-bit equal to `v`; identically for
the bit-packed boolean specialization. -/
theorem c5_roundtrip :
    (∀ (w al : Nat) (dt : DataType) (data : List (Option Nat)),
      (∀ (i : Nat) (hi : i < data.length) (v : Nat),
        data.get ⟨i, hi⟩ = some v → v < 256 ^ w) →
      PrimitiveArray.from_vec_opt w al dt data =
        .ok (.primitive w (optData w dt data) ⟨optValBuf w data, 0⟩)
      ∧ ∀ (i : Nat) (hi : i < data.length),
        (data.get ⟨i, hi⟩ = none →
          (ArrowArray.primitive w (optData w dt data) ⟨optValBuf w data, 0⟩).is_valid i
              = false
          ∧ (ArrowArray.primitive w (optData w dt data) ⟨optValBuf w data, 0⟩).is_null i
              = true)
        ∧ (∀ v, data.get ⟨i, hi⟩ = some v →
          (ArrowArray.primitive w (optData w dt data) ⟨optValBuf w data, 0⟩).is_valid i
              = true
          ∧ PrimitiveArray.value w (optData w dt data) ⟨optValBuf w data, 0⟩ i = v))
    ∧ (∀ (data : List (Option Bool)),
      BooleanArray.from_vec_opt data =
        .ok (.boolean (boolOptData data) ⟨boolOptValBuf data, 0⟩)
      ∧ ∀ (i : Nat) (hi : i < data.length),
        (data.get ⟨i, hi⟩ = none →
          (ArrowArray.boolean (boolOptData data) ⟨boolOptValBuf data, 0⟩).is_valid i
              = false
          ∧ (ArrowArray.boolean (boolOptData data) ⟨boolOptValBuf data, 0⟩).is_null i
              = true)
        ∧ (∀ bv, data.get ⟨i, hi⟩ = some bv →
          (ArrowArray.boolean (boolOptData data) ⟨boolOptValBuf data, 0⟩).is_valid i
              = true
          ∧ BooleanArray.value (boolOptData data) ⟨boolOptValBuf data, 0⟩ i = .ok bv)) := by
  constructor
  · intro w al dt data hbound
    refine ⟨from_vec_opt_eq w al dt data, fun i hi => ?_⟩
    have hvalid : (ArrowArray.primitive w (optData w dt data)
        ⟨optValBuf w data, 0⟩).is_valid i = (data.get ⟨i, hi⟩).isSome := by
      show getBit (optNullBuf data) i = _
      exact optNullBuf_bit data i hi
    constructor
    · intro hnone
      rw [hnone] at hvalid
      refine ⟨hvalid, ?_⟩
      show (! (ArrowArray.primitive w (optData w dt data)
        ⟨optValBuf w data, 0⟩).is_valid i) = true
      rw [hvalid]
      rfl
    · intro v hv
      rw [hv] at hvalid
      refine ⟨hvalid, ?_⟩
      rw [from_vec_opt_value w dt data i hi, hv]
      exact decodeLE_encodeLE w v (hbound i hi v hv)
  · intro data
    refine ⟨bool_from_vec_opt_eq data, fun i hi => ?_⟩
    have hvalid : (ArrowArray.boolean (boolOptData data)
        ⟨boolOptValBuf data, 0⟩).is_valid i = (data.get ⟨i, hi⟩).isSome := by
      show getBit (optNullBuf data) i = _
      exact optNullBuf_bit data i hi
    constructor
    · intro hnone
      rw [hnone] at hvalid
      refine ⟨hvalid, ?_⟩
      show (! (ArrowArray.boolean (boolOptData data)
        ⟨boolOptValBuf data, 0⟩).is_valid i) = true
      rw [hvalid]
      rfl
    · intro bv hbv
      rw [hbv] at hvalid
      refine ⟨hvalid, ?_⟩
      have hoff : i + (boolOptData data).offsetv = i := rfl
      have hlen : (boolOptData data).len = data.length := rfl
      simp only [BooleanArray.value, hoff, hlen, if_pos hi]
      show Except.ok (getBit (boolOptValBuf data) i) = _
      rw [boolOptValBuf_bit data i hi, hbv]
      rfl

/-- Witness for C5 on `[Some 5, None]` and `[Some true, None, Some false]`. -/
theorem c5_roundtrip_witness :
    PrimitiveArray.value 1 (optData 1 .uint8 exOptVec) ⟨optValBuf 1 exOptVec, 0⟩ 0 = 5
    ∧ (ArrowArray.primitive 1 (optData 1 .uint8 exOptVec)
        ⟨optValBuf 1 exOptVec, 0⟩).is_valid 1 = false
    ∧ BooleanArray.value (boolOptData exOptBoolVec) ⟨boolOptValBuf exOptBoolVec, 0⟩ 2
        = .ok false :=
  ⟨((c5_roundtrip.1 1 1 .uint8 exOptVec (by decide)).2 0 (by decide)).2 5 rfl |>.2,
   ((c5_roundtrip.1 1 1 .uint8 exOptVec (by decide)).2 1 (by decide)).1 rfl |>.1,
   ((c5_roundtrip.2 exOptBoolVec).2 2 (by decide)).2 false rfl |>.2⟩

/-- C10: a numeric primitive array built from a vector of optional values
reads back `0` (the zero-filled placeholder) at every `None` slot — value
access never consults the null bitmap. -/
theorem c10_null_slot_zero :
    ∀ (w al : Nat) (dt : DataType) (data : List (Option Nat)) (i : Nat)
      (hi : i < data.length), data.get ⟨i, hi⟩ = none →
      PrimitiveArray.from_vec_opt w al dt data =
        .ok (.primitive w (optData w dt data) ⟨optValBuf w data, 0⟩)
      ∧ PrimitiveArray.value w (optData w dt data) ⟨optValBuf w data, 0⟩ i = 0 := by
  intro w al dt data i hi hnone
  refine ⟨from_vec_opt_eq w al dt data, ?_⟩
  rw [from_vec_opt_value w dt data i hi, hnone]
  exact decodeLE_replicate_zero w

/-- Witness for C10 at slot 1 of `[Some 5, None]` with 4-byte elements. -/
theorem c10_null_slot_zero_witness :
    PrimitiveArray.value 4 (optData 4 .int32 exOptVec) ⟨optValBuf 4 exOptVec, 0⟩ 1 = 0 :=
  (c10_null_slot_zero 4 4 .int32 exOptVec 1 (by decide) rfl).2

/-- `make_array` on a list-tagged container is `ListArray::from`. -/
theorem make_array_list_eq (et : DataType) (len off nc : Nat) (bufs : List Buffer)
    (children : List ArrayData) (bm : Option Buffer) :
    make_array (.mk (.list et) len off nc bufs children bm) =
      ListArray.from_data (.mk (.list et) len off nc bufs children bm) := by
  cases bufs with
  | nil => rfl
  | cons b rest =>
    cases rest with
    | cons b2 rest2 => rfl
    | nil =>
      cases children with
      | nil => rfl
      | cons c crest =>
        cases crest with
        | nil => rfl
        | cons c2 crest2 => rfl

/-- `BinaryArray::from(ArrayDataRef)` succeeds on every two-buffer container
whose offsets buffer is 4-byte aligned, whatever the offsets contain. -/
theorem binary_from_data_eq (d : ArrayData) (b1 b2 : Buffer)
    (hb : d.buffers = [b1, b2]) (hal : is_aligned b1.addr 4 = true) :
    BinaryArray.from_data d = .ok (.binary d b1 b2) := by
  unfold BinaryArray.from_data
  rw [hb]
  show (if is_aligned b1.addr 4 then _ else _ : Except String ArrowArray) = _
  rw [if_pos hal]

/-- Counterexample to C3 as stated: the binary/text layout performs *no*
offsets validation — both a container whose offsets `[2, 2, 5, 7]` do not
start at zero and one whose offsets `[0, 2, 5, 7]` end at 7 over an 8-byte
payload construct successfully. -/
theorem c3_binary_offsets_counterexample :
    (BinaryArray.from_data exBinBad1).isOk = true
    ∧ (BinaryArray.from_data exBinBad2).isOk = true := by decide

/-- C3 (amended): only the *list* layout validates its offsets — it aborts
with "offsets do not start at zero" when `offsets[0] ≠ 0` and with
"inconsistent offsets buffer and values array" when `offsets[len] ≠ child
length`; in particular it rejects offsets `[2, 2, 5, 7]` and `[0, 2, 5, 7]`
against a child of length 8.  The binary/text layout validates only buffer
count and alignment and accepts any offsets content. -/
theorem c3_offsets_validation_amended :
    (∀ (et : DataType) (len off nc : Nat) (b : Buffer) (c : ArrayData)
        (bm : Option Buffer) (v : ArrowArray),
      make_array c = .ok v → is_aligned b.addr 4 = true →
      (value_offset_at b 0 ≠ 0 →
        make_array (.mk (.list et) len off nc [b] [c] bm) =
          .error "offsets do not start at zero")
      ∧ (value_offset_at b 0 = 0 → value_offset_at b len ≠ toI32 c.len →
        make_array (.mk (.list et) len off nc [b] [c] bm) =
          .error "inconsistent offsets buffer and values array"))
    ∧ (∀ (d : ArrayData) (b1 b2 : Buffer), d.buffers = [b1, b2] →
        is_aligned b1.addr 4 = true →
        BinaryArray.from_data d = .ok (.binary d b1 b2))
    ∧ make_array exListBad1 = .error "offsets do not start at zero"
    ∧ make_array exListBad2 = .error "inconsistent offsets buffer and values array" := by
  refine ⟨fun et len off nc b c bm v hv hal => ⟨fun h0 => ?_, fun h0 hend => ?_⟩,
    fun d b1 b2 hb hal => ?_, by rfl, by rfl⟩
  · rw [make_array_list_eq]
    show (make_array c).bind _ = _
    rw [hv]
    show (if is_aligned b.addr 4 then _ else _ : Except String ArrowArray) = _
    rw [if_pos hal, if_neg h0]
  · rw [make_array_list_eq]
    show (make_array c).bind _ = _
    rw [hv]
    show (if is_aligned b.addr 4 then _ else _ : Except String ArrowArray) = _
    rw [if_pos hal, if_pos h0]
    have hlen : (ArrayData.mk (.list et) len off nc [b] [c] bm).len = len := rfl
    rw [hlen, if_neg hend]
  · exact binary_from_data_eq d b1 b2 hb hal

/-- Witness for C3's amended claim: the general list-validation conjunct
applied to the `[2, 2, 5, 7]` fixture. -/
theorem c3_offsets_validation_amended_witness :
    make_array (.mk (.list .int32) 3 0 0 [⟨offsBytes [2, 2, 5, 7], 0⟩] [exChild8] none) =
      .error "offsets do not start at zero" :=
  (c3_offsets_validation_amended.1 .int32 3 0 0 ⟨offsBytes [2, 2, 5, 7], 0⟩ exChild8
    none (.primitive 4 exChild8 ⟨offsBytes [0, 1, 2, 3, 4, 5, 6, 7], 0⟩)
    (by rfl) (by decide)).1 (by decide)

/-- C8: a misaligned start pointer is fatal in all three validated layouts —
fixed-width primitive (aligned to the element's native size), list (offsets
4-byte aligned) and binary/text (offsets 4-byte aligned) — while 1-byte
(incl. boolean, which is bit-packed) buffers only need byte alignment, so
their construction never fails on alignment. -/
theorem c8_alignment :
    (∀ (al : Nat) (d : ArrayData) (b : Buffer), d.buffers = [b] →
      is_aligned b.addr al = false →
      PrimitiveArray.from_data al d = .error "memory is not aligned")
    ∧ (∀ (et : DataType) (len off nc : Nat) (b : Buffer) (c : ArrayData)
        (bm : Option Buffer) (v : ArrowArray),
      make_array c = .ok v → is_aligned b.addr 4 = false →
      make_array (.mk (.list et) len off nc [b] [c] bm) =
        .error "memory is not aligned")
    ∧ (∀ (d : ArrayData) (b1 b2 : Buffer), d.buffers = [b1, b2] →
      is_aligned b1.addr 4 = false →
      BinaryArray.from_data d = .error "memory is not aligned")
    ∧ (∀ (d : ArrayData) (b : Buffer), d.buffers = [b] →
      PrimitiveArray.from_data 1 d = .ok b) := by
  refine ⟨fun al d b hb hal => ?_, fun et len off nc b c bm v hv hal => ?_,
    fun d b1 b2 hb hal => ?_, fun d b hb => ?_⟩
  · unfold PrimitiveArray.from_data
    rw [hb]
    show (if is_aligned b.addr al then _ else _ : Except String Buffer) = _
    rw [hal]
    rfl
  · rw [make_array_list_eq]
    show (make_array c).bind _ = _
    rw [hv]
    show (if is_aligned b.addr 4 then _ else _ : Except String ArrowArray) = _
    rw [hal]
    rfl
  · unfold BinaryArray.from_data
    rw [hb]
    show (if is_aligned b1.addr 4 then _ else _ : Except String ArrowArray) = _
    rw [hal]
    rfl
  · rw [primitive_from_data_ok]
    exact ⟨hb, by simp [is_aligned, Nat.mod_one]⟩

/-- Witness for C8: an aligned 8-byte buffer sliced at offset 1 is rejected
by the primitive, list and binary constructions alike. -/
theorem c8_alignment_witness :
    PrimitiveArray.from_data 4 (.mk .int32 0 0 0 [exMisaligned] [] none) =
      .error "memory is not aligned"
    ∧ make_array (.mk (.list .int32) 0 0 0 [exMisaligned] [exChild8] none) =
      .error "memory is not aligned"
    ∧ BinaryArray.from_data
        (.mk .utf8 0 0 0 [exMisaligned, ⟨List.replicate 12 0, 0⟩] [] none) =
      .error "memory is not aligned" :=
  ⟨c8_alignment.1 4 (.mk .int32 0 0 0 [exMisaligned] [] none) exMisaligned rfl (by decide),
   c8_alignment.2.1 .int32 0 0 0 exMisaligned exChild8 none
     (.primitive 4 exChild8 ⟨offsBytes [0, 1, 2, 3, 4, 5, 6, 7], 0⟩) (by rfl) (by decide),
   c8_alignment.2.2.1 (.mk .utf8 0 0 0 [exMisaligned, ⟨List.replicate 12 0, 0⟩] [] none)
     exMisaligned ⟨List.replicate 12 0, 0⟩ rfl (by decide)⟩

/-- The column-length loop errors as soon as any column's length differs from
the first column's. -/
theorem checkLens_error (l0 : Nat) (rest : List ((String × DataType) × ArrowArray))
    (hok : ∀ q ∈ rest, (q.2.len).isOk = true)
    (hex : ∃ q ∈ rest, q.2.len ≠ .ok l0) :
    checkLens l0 rest =
      .error "all child arrays of a StructArray must have the same length" := by
  induction rest with
  | nil => simp at hex
  | cons q rest ih =>
    have hq := hok q (List.mem_cons_self ..)
    obtain ⟨l, hl⟩ : ∃ l, q.2.len = .ok l := by
      cases h : q.2.len with
      | ok l => exact ⟨l, rfl⟩
      | error e => rw [h] at hq; simp [Except.isOk, Except.toBool] at hq
    show (q.2.len).bind _ = _
    rw [hl]
    show (if l0 = l then checkLens l0 rest else _) = _
    by_cases heq : l0 = l
    · subst heq
      rw [if_pos rfl]
      refine ih (fun p hp => hok p (List.mem_cons_of_mem _ hp)) ?_
      obtain ⟨p, hp, hne⟩ := hex
      rcases List.mem_cons.mp hp with hpq | hptail
      · exact absurd (hpq ▸ hl) hne
      · exact ⟨p, hptail, hne⟩
    · rw [if_neg heq]

/-- C9: a struct array's length is not stored independently — `len()` is the
first field's length, whatever the wrapped container says — and
construction from named columns aborts whenever any supplied column's length
differs from the first column's. -/
theorem c9_struct_length :
    (∀ (d d' : ArrayData) (f : ArrowArray) (rest : List ArrowArray),
      (ArrowArray.struct d (f :: rest)).len = f.len
      ∧ (ArrowArray.struct d (f :: rest)).len = (ArrowArray.struct d' (f :: rest)).len)
    ∧ (∀ (p0 : (String × DataType) × ArrowArray)
        (rest : List ((String × DataType) × ArrowArray)) (l0 : Nat),
      p0.2.len = .ok l0 →
      (∀ q ∈ rest, (q.2.len).isOk = true) →
      (∃ q ∈ rest, q.2.len ≠ .ok l0) →
      StructArray.from_pairs (p0 :: rest) =
        .error "all child arrays of a StructArray must have the same length") := by
  refine ⟨fun d d' f rest => ⟨rfl, rfl⟩, fun p0 rest l0 h0 hok hex => ?_⟩
  obtain ⟨f0, a0⟩ := p0
  show (a0.len).bind _ = _
  rw [show a0.len = Except.ok l0 from h0]
  show (checkLens l0 rest).bind _ = _
  rw [checkLens_error l0 rest hok hex]
  rfl

/-- Witness for C9: columns of lengths 1 and 2 are rejected. -/
theorem c9_struct_length_witness :
    StructArray.from_pairs [(("b", .float32), exF32Len1), (("c", .float64), exF64Len2)] =
      .error "all child arrays of a StructArray must have the same length" :=
  c9_struct_length.2 (("b", .float32), exF32Len1) [(("c", .float64), exF64Len2)] 1
    rfl (by decide) ⟨(("c", .float64), exF64Len2), by simp, by decide⟩

theorem except_map_ok {ε α β : Type} (e : Except ε α) (f : α → β) (b : β)
    (h : e.map f = .ok b) : ∃ a, e = .ok a ∧ b = f a := by
  cases e with
  | error e => simp [Except.map] at h
  | ok a => exact ⟨a, rfl, (Except.ok.inj h).symm⟩

/-- Inversion for `PrimitiveArray`-style construction followed by wrapping. -/
theorem from_data_map_inv (al : Nat) (d : ArrayData) (f : Buffer → ArrowArray)
    (a : ArrowArray) (h : (PrimitiveArray.from_data al d).map f = .ok a) :
    ∃ b, d.buffers = [b] ∧ a = f b := by
  obtain ⟨b, he, rfl⟩ := except_map_ok _ _ _ h
  exact ⟨b, ((primitive_from_data_ok al d b).mp he).1, rfl⟩

/-- Inversion for `BinaryArray::from(ArrayDataRef)`. -/
theorem binary_from_data_inv (d : ArrayData) (a : ArrowArray)
    (h : BinaryArray.from_data d = .ok a) :
    ∃ b1 b2, d.buffers = [b1, b2] ∧ a = .binary d b1 b2 := by
  unfold BinaryArray.from_data at h
  split at h
  · rename_i b1 b2 hb
    split at h
    · exact ⟨b1, b2, hb, (Except.ok.inj h).symm⟩
    · simp at h
  · simp at h

/-- Inversion for `ListArray::from(ArrayDataRef)`. -/
theorem list_from_data_inv (d : ArrayData) (a : ArrowArray)
    (h : ListArray.from_data d = .ok a) :
    ∃ b c v, d.buffers = [b] ∧ d.child_data = [c] ∧ make_array c = .ok v
      ∧ a = .list d v b := by
  unfold ListArray.from_data at h
  split at h
  · rename_i b hb
    split at h
    · rename_i c hc
      cases hv : make_array c with
      | error e => rw [hv] at h; simp [Except.bind] at h
      | ok v =>
        rw [hv] at h
        simp only [Except.bind] at h
        split at h
        · split at h
          · split at h
            · exact ⟨b, c, v, hb, hc, hv, (Except.ok.inj h).symm⟩
            · simp at h
          · simp at h
        · simp at h
    · simp at h
  · simp at h

/-- Counterexample to C1 as stated: a struct container whose own length field
says 5 over a single child of length 2 has a supported tag and matching
buffer/child counts, and the factory *returns* an array — but that array's
length is 2, the first child's length, not the container's 5. -/
theorem c1_struct_length_counterexample :
    make_array exStructLen =
      .ok (.struct exStructLen [.primitive 1 exInt8Len2 ⟨[5, 6], 0⟩])
    ∧ (ArrowArray.struct exStructLen [.primitive 1 exInt8Len2 ⟨[5, 6], 0⟩]).len = .ok 2
    ∧ exStructLen.len = 5 :=
  ⟨rfl, rfl, rfl⟩

/-- C1 (amended): whenever the factory returns an array (construction-time
validation — alignment, offsets — may still abort), the concrete layout
matches the type tag and the array's `null_count` and `offset` equal the
container's; its `length` equals the container's for every layout *except*
struct, whose length is derived from the first field instead.  Every
unsupported tag makes the factory panic. -/
theorem c1_factory_dispatch_amended :
    (∀ (d : ArrayData) (a : ArrowArray), make_array d = .ok a →
      d.data_type.layout = some a.layout
      ∧ a.null_count = d.null_count
      ∧ a.offsetOf = d.offsetv
      ∧ (a.layout ≠ .structL → a.len = .ok d.len))
    ∧ (∀ d : ArrayData, d.data_type.layout = none →
      make_array d = .error "Unexpected data type") := by
  constructor
  · intro d a h
    obtain ⟨dt, len, off, nc, bufs, children, bm⟩ := d
    cases dt with
    | boolean =>
      obtain ⟨b, hbuf, rfl⟩ := from_data_map_inv 1 _ _ a h
      exact ⟨rfl, rfl, rfl, fun _ => rfl⟩
    | int8 =>
      obtain ⟨b, hbuf, rfl⟩ := from_data_map_inv 1 _ _ a h
      exact ⟨rfl, rfl, rfl, fun _ => rfl⟩
    | int16 =>
      obtain ⟨b, hbuf, rfl⟩ := from_data_map_inv 2 _ _ a h
      exact ⟨rfl, rfl, rfl, fun _ => rfl⟩
    | int32 =>
      obtain ⟨b, hbuf, rfl⟩ := from_data_map_inv 4 _ _ a h
      exact ⟨rfl, rfl, rfl, fun _ => rfl⟩
    | int64 =>
      obtain ⟨b, hbuf, rfl⟩ := from_data_map_inv 8 _ _ a h
      exact ⟨rfl, rfl, rfl, fun _ => rfl⟩
    | uint8 =>
      obtain ⟨b, hbuf, rfl⟩ := from_data_map_inv 1 _ _ a h
      exact ⟨rfl, rfl, rfl, fun _ => rfl⟩
    | uint16 =>
      obtain ⟨b, hbuf, rfl⟩ := from_data_map_inv 2 _ _ a h
      exact ⟨rfl, rfl, rfl, fun _ => rfl⟩
    | uint32 =>
      obtain ⟨b, hbuf, rfl⟩ := from_data_map_inv 4 _ _ a h
      exact ⟨rfl, rfl, rfl, fun _ => rfl⟩
    | uint64 =>
      obtain ⟨b, hbuf, rfl⟩ := from_data_map_inv 8 _ _ a h
      exact ⟨rfl, rfl, rfl, fun _ => rfl⟩
    | float32 =>
      obtain ⟨b, hbuf, rfl⟩ := from_data_map_inv 4 _ _ a h
      exact ⟨rfl, rfl, rfl, fun _ => rfl⟩
    | float64 =>
      obtain ⟨b, hbuf, rfl⟩ := from_data_map_inv 8 _ _ a h
      exact ⟨rfl, rfl, rfl, fun _ => rfl⟩
    | utf8 =>
      obtain ⟨b1, b2, hbuf, rfl⟩ := binary_from_data_inv _ a h
      exact ⟨rfl, rfl, rfl, fun _ => rfl⟩
    | list et =>
      rw [make_array_list_eq] at h
      obtain ⟨b, c, v, hbuf, hch, hv, rfl⟩ := list_from_data_inv _ a h
      exact ⟨rfl, rfl, rfl, fun _ => rfl⟩
    | struct fs =>
      obtain ⟨fields, _, rfl⟩ := except_map_ok _ _ a h
      exact ⟨rfl, rfl, rfl, fun hne => absurd rfl hne⟩
    | timestamp u => exact Except.noConfusion h
    | date32 => exact Except.noConfusion h
    | date64 => exact Except.noConfusion h
    | time32 u => exact Except.noConfusion h
    | time64 u => exact Except.noConfusion h
    | interval => exact Except.noConfusion h
  · intro d hl
    obtain ⟨dt, len, off, nc, bufs, children, bm⟩ := d
    cases dt <;> first
      | rfl
      | simp [ArrayData.data_type, DataType.layout] at hl

/-- Witness for C1's amended claim: the `Int8` fixture dispatches to the
1-byte primitive layout with the container's length, null count and offset;
a timestamp tag panics. -/
theorem c1_factory_dispatch_amended_witness :
    (exInt8Len2.data_type.layout =
        some ((ArrowArray.primitive 1 exInt8Len2 ⟨[5, 6], 0⟩).layout)
      ∧ (ArrowArray.primitive 1 exInt8Len2 ⟨[5, 6], 0⟩).null_count = exInt8Len2.null_count
      ∧ (ArrowArray.primitive 1 exInt8Len2 ⟨[5, 6], 0⟩).offsetOf = exInt8Len2.offsetv
      ∧ ((ArrowArray.primitive 1 exInt8Len2 ⟨[5, 6], 0⟩).layout ≠ .structL →
        (ArrowArray.primitive 1 exInt8Len2 ⟨[5, 6], 0⟩).len = .ok exInt8Len2.len))
    ∧ make_array (.mk (.timestamp .second) 0 0 0 [] [] none) =
        .error "Unexpected data type" :=
  ⟨c1_factory_dispatch_amended.1 exInt8Len2 (.primitive 1 exInt8Len2 ⟨[5, 6], 0⟩) rfl,
   c1_factory_dispatch_amended.2 (.mk (.timestamp .second) 0 0 0 [] [] none) rfl⟩

/-- When the child checks pass and the offsets buffer is aligned,
`From<ListArray>` reinterprets in place: it returns the binary layout over a
fresh `Utf8` container holding exactly the list's offsets buffer and the
child's value buffer. -/
theorem from_list_ok_structure (d c : ArrayData) (crest : List ArrayData)
    (boff bval : Buffer) (brest cbrest : List Buffer)
    (hch : d.child_data = c :: crest) (hno : c.child_data = [])
    (hty : c.data_type = .uint8) (hb : d.buffers = boff :: brest)
    (hcb : c.buffers = bval :: cbrest) (hal : is_aligned boff.addr 4 = true) :
    BinaryArray.from_list d =
      .ok (.binary (buildData .utf8 d.len 0
          (match d.null_bitmap with
            | some _ => some d.null_count
            | none => none)
          [boff, bval] [] d.null_bitmap) boff bval) := by
  obtain ⟨dt, len, off, nc, bufs, children, bm⟩ := d
  obtain ⟨cdt, clen, coff, cnc, cbufs, cch, cbm⟩ := c
  simp only [ArrayData.child_data] at hch
  simp only [ArrayData.buffers] at hb hcb
  simp only [ArrayData.data_type] at hty
  simp only [ArrayData.child_data] at hno
  subst hch hb hcb hty hno
  exact binary_from_data_eq
    (buildData .utf8 len 0
      (match bm with
        | some _ => some nc
        | none => none)
      [boff, bval] [] bm) boff bval rfl hal

/-- C7: `From<ListArray>` for the binary/text layout — rejects a nested or
non-`u8` child with the two descriptive messages; on success it reuses the
list's offsets buffer and the child's value buffer as the exactly-2 buffers
of a 0-children container, preserves the null bitmap (and the null count
whenever a bitmap is present), and a list of byte strings converted this way
is accessor-for-accessor equal to a binary array built directly from the same
logical strings. -/
theorem c7_list_to_binary :
    (∀ (d c : ArrayData) (rest : List ArrayData),
      d.child_data = c :: rest → c.child_data ≠ [] →
      BinaryArray.from_list d =
        .error "BinaryArray can only be created from list array of u8 values (i.e. List<PrimitiveArray<u8>>).")
    ∧ (∀ (d c : ArrayData) (rest : List ArrayData),
      d.child_data = c :: rest → c.child_data = [] →
      BinaryArray.from_list.isUInt8 c.data_type = false →
      BinaryArray.from_list d =
        .error "BinaryArray can only be created from List<u8> arrays, mismatched data types.")
    ∧ (∀ (d c : ArrayData) (crest : List ArrayData) (boff bval : Buffer)
        (brest cbrest : List Buffer),
      d.child_data = c :: crest → c.child_data = [] → c.data_type = .uint8 →
      d.buffers = boff :: brest → c.buffers = bval :: cbrest →
      is_aligned boff.addr 4 = true →
      ∃ nd, BinaryArray.from_list d = .ok (.binary nd boff bval)
        ∧ nd.buffers = [boff, bval]
        ∧ nd.child_data = []
        ∧ nd.null_bitmap = d.null_bitmap
        ∧ nd.len = d.len
        ∧ (∀ bmv, d.null_bitmap = some bmv → nd.null_count = d.null_count)
        ∧ (d.null_bitmap = none → nd.null_count = 0))
    ∧ (∀ (v : List (List Nat)) (a1 a2 : Nat), is_aligned a1 4 = true →
      ∃ nd dd,
        BinaryArray.from_list
            (.mk .utf8 v.length 0 0 [⟨offsBytes (prefixLens v), a1⟩]
              [.mk .uint8 v.flatten.length 0 0 [⟨v.flatten, a2⟩] [] none] none) =
          .ok (.binary nd ⟨offsBytes (prefixLens v), a1⟩ ⟨v.flatten, a2⟩)
        ∧ BinaryArray.from_byte_vecs v =
          .ok (.binary dd ⟨offsBytes (prefixLens v), 0⟩ ⟨v.flatten, 0⟩)
        ∧ ∀ i,
          BinaryArray.value nd ⟨offsBytes (prefixLens v), a1⟩ ⟨v.flatten, a2⟩ i
            = BinaryArray.value dd ⟨offsBytes (prefixLens v), 0⟩ ⟨v.flatten, 0⟩ i
          ∧ BinaryArray.get_string nd ⟨offsBytes (prefixLens v), a1⟩ ⟨v.flatten, a2⟩ i
            = BinaryArray.get_string dd ⟨offsBytes (prefixLens v), 0⟩ ⟨v.flatten, 0⟩ i
          ∧ BinaryArray.value_offset nd ⟨offsBytes (prefixLens v), a1⟩ i
            = BinaryArray.value_offset dd ⟨offsBytes (prefixLens v), 0⟩ i
          ∧ BinaryArray.value_length nd ⟨offsBytes (prefixLens v), a1⟩ i
            = BinaryArray.value_length dd ⟨offsBytes (prefixLens v), 0⟩ i) := by
  refine ⟨fun d c rest hch hno => ?_, fun d c rest hch hno hty => ?_,
    fun d c crest boff bval brest cbrest hch hno hty hb hcb hal => ?_,
    fun v a1 a2 hal => ?_⟩
  · obtain ⟨dt, len, off, nc, bufs, children, bm⟩ := d
    simp only [ArrayData.child_data] at hch
    subst hch
    show (if c.child_data.length ≠ 0 then _ else _ : Except String ArrowArray) = _
    rw [if_pos (by simpa [List.length_eq_zero] using hno)]
  · obtain ⟨dt, len, off, nc, bufs, children, bm⟩ := d
    simp only [ArrayData.child_data] at hch
    subst hch
    show (if c.child_data.length ≠ 0 then _ else _ : Except String ArrowArray) = _
    rw [if_neg (by simp [hno])]
    show (if (! BinaryArray.from_list.isUInt8 c.data_type) = true then _
      else _ : Except String ArrowArray) = _
    rw [if_pos (by simp [hty])]
  · refine ⟨buildData .utf8 d.len 0
      (match d.null_bitmap with
        | some _ => some d.null_count
        | none => none) [boff, bval] [] d.null_bitmap,
      from_list_ok_structure d c crest boff bval brest cbrest hch hno hty hb hcb hal,
      rfl, rfl, rfl, rfl, fun bmv hbm => ?_, fun hbm => ?_⟩
    · rw [hbm]
      rfl
    · rw [hbm]
      rfl
  · refine ⟨.mk .utf8 v.length 0 0
        [⟨offsBytes (prefixLens v), a1⟩, ⟨v.flatten, a2⟩] [] none,
      .mk .utf8 v.length 0 0
        [⟨offsBytes (prefixLens v), 0⟩, ⟨v.flatten, 0⟩] [] none,
      from_list_ok_structure _ _ [] ⟨offsBytes (prefixLens v), a1⟩ ⟨v.flatten, a2⟩
        [] [] rfl rfl rfl rfl rfl hal,
      binary_from_data_eq _ _ _ rfl (by simp [is_aligned]),
      fun i => ⟨rfl, rfl, rfl, rfl⟩⟩

/-- Witness for C7 on the `["hello", "", "parquet"]` fixture. -/
theorem c7_list_to_binary_witness :
    ∃ nd dd,
      BinaryArray.from_list
          (.mk .utf8 exStrings.length 0 0 [⟨offsBytes (prefixLens exStrings), 0⟩]
            [.mk .uint8 exStrings.flatten.length 0 0 [⟨exStrings.flatten, 0⟩] [] none]
            none) =
        .ok (.binary nd ⟨offsBytes (prefixLens exStrings), 0⟩ ⟨exStrings.flatten, 0⟩)
      ∧ BinaryArray.from_byte_vecs exStrings =
        .ok (.binary dd ⟨offsBytes (prefixLens exStrings), 0⟩ ⟨exStrings.flatten, 0⟩)
      ∧ ∀ i,
        BinaryArray.value nd ⟨offsBytes (prefixLens exStrings), 0⟩
            ⟨exStrings.flatten, 0⟩ i
          = BinaryArray.value dd ⟨offsBytes (prefixLens exStrings), 0⟩
            ⟨exStrings.flatten, 0⟩ i
        ∧ BinaryArray.get_string nd ⟨offsBytes (prefixLens exStrings), 0⟩
            ⟨exStrings.flatten, 0⟩ i
          = BinaryArray.get_string dd ⟨offsBytes (prefixLens exStrings), 0⟩
            ⟨exStrings.flatten, 0⟩ i
        ∧ BinaryArray.value_offset nd ⟨offsBytes (prefixLens exStrings), 0⟩ i
          = BinaryArray.value_offset dd ⟨offsBytes (prefixLens exStrings), 0⟩ i
        ∧ BinaryArray.value_length nd ⟨offsBytes (prefixLens exStrings), 0⟩ i
          = BinaryArray.value_length dd ⟨offsBytes (prefixLens exStrings), 0⟩ i :=
  c7_list_to_binary.2.2.2 exStrings 0 0 (by decide)

end ArrowSpec
